import Mathlib

/-!
Verification of the budget aggregation and audit-logging core of the
ppdo-joseph repository, shallowly embedded in Lean 4.

Embedding conventions:
- Convex documents become Lean structures; optional fields become
  `Option` values (a missing field is `none`).
- JavaScript numbers are modelled as rationals (the arithmetic in the
  claims, sums and a single division, is exact in both).
- The query pattern `.filter (q.neq (q.field "isDeleted") true)` keeps a
  record whose `isDeleted` field is anything but `true`, including a
  missing field; it is embedded as the predicate `isDeleted ≠ some true`.
- Database ids are modelled as natural numbers; the stateful mutations
  are embedded as explicit state passing over association lists keyed by
  those ids.
-/

namespace PPDO

/-- Mirror of a row of the `projects` table, restricted to the fields the
aggregation and trash code reads or writes. -/
structure Project where
  budgetItemId : Option Nat
  totalBudgetAllocated : ℚ
  obligatedBudget : Option ℚ
  totalBudgetUtilized : Option ℚ
  utilizationRate : ℚ
  projectCompleted : Nat
  projectDelayed : Nat
  projectsOnTrack : Nat
  status : Option String
  isDeleted : Option Bool
  deletedAt : Option Nat
  deletedBy : Option Nat
  updatedAt : Nat
  updatedBy : Option Nat
  createdBy : Nat
  deriving Repr, DecidableEq

/-- Mirror of a row of the `govtProjectBreakdowns` table, restricted to the
fields the aggregation and trash code reads or writes. -/
structure Breakdown where
  status : Option String
  isDeleted : Option Bool
  deletedAt : Option Nat
  deletedBy : Option Nat
  deriving Repr, DecidableEq

/-- Mirror of a row of the `budgetItems` table, restricted to the fields the
aggregation and removal code reads or writes. -/
structure BudgetItem where
  totalBudgetAllocated : ℚ
  obligatedBudget : Option ℚ
  totalBudgetUtilized : ℚ
  utilizationRate : ℚ
  projectCompleted : Nat
  projectDelayed : Nat
  projectsOnTrack : Nat
  status : String
  updatedAt : Nat
  updatedBy : Option Nat
  createdBy : Nat
  deriving Repr, DecidableEq

/-- The query filter `q.neq (q.field "isDeleted") true` applied to a project:
keeps every record whose flag is not literally `true`. -/
def isActiveProject (p : Project) : Bool :=
  p.isDeleted ≠ some true

/-- The query filter `q.neq (q.field "isDeleted") true` applied to a
breakdown. -/
def isActiveBreakdown (b : Breakdown) : Bool :=
  b.isDeleted ≠ some true

/-- The mutable accumulator `{ completed: 0, delayed: 0, onTrack: 0 }` used by
both aggregators. -/
structure StatusCounts where
  completed : Nat
  delayed : Nat
  onTrack : Nat
  deriving Repr, DecidableEq

/-- One iteration of the status-counting loop shared by
`recalculateBudgetItemMetrics` and `recalculateProjectMetrics`:
`if (status === "completed") acc.completed++; else if (status === "delayed")
acc.delayed++; else if (status === "ongoing") acc.onTrack++;`. -/
def statusCountStep (acc : StatusCounts) (status : Option String) : StatusCounts :=
  if status = some "completed" then { acc with completed := acc.completed + 1 }
  else if status = some "delayed" then { acc with delayed := acc.delayed + 1 }
  else if status = some "ongoing" then { acc with onTrack := acc.onTrack + 1 }
  else acc

/-- The whole status-counting loop over a list of child statuses. -/
def statusCountsFold (statuses : List (Option String)) : StatusCounts :=
  statuses.foldl statusCountStep ⟨0, 0, 0⟩

/-- The status-priority chain shared by both aggregators:
`if (counts.onTrack > 0) "ongoing" else if (counts.delayed > 0) "delayed"
else if (counts.completed > 0) "completed" else "ongoing"`. -/
def deriveStatus (c : StatusCounts) : String :=
  if 0 < c.onTrack then "ongoing"
  else if 0 < c.delayed then "delayed"
  else if 0 < c.completed then "completed"
  else "ongoing"

/-- The derived fields persisted by `recalculateBudgetItemMetrics` via
`ctx.db.patch` (timestamp and actor are handled by `applyBudgetMetrics`). -/
@[ext]
structure BudgetMetrics where
  obligatedBudget : ℚ
  totalBudgetUtilized : ℚ
  utilizationRate : ℚ
  projectCompleted : Nat
  projectDelayed : Nat
  projectsOnTrack : Nat
  status : String
  deriving Repr, DecidableEq

/-- Pure core of `recalculateBudgetItemMetrics`
(convex/lib/budgetAggregation.ts, lines 14 to 85): given the budget item
field `totalBudgetAllocated` and the child projects referencing the budget
item (before the deletion filter), computes the derived fields that the
function persists.  The query filter `isDeleted != true` is the
`List.filter isActiveProject`; the sums use `|| 0` defaulting, embedded as
`Option.getD 0`. -/
def recalculateBudgetItemMetrics (totalBudgetAllocated : ℚ)
    (projects : List Project) : BudgetMetrics :=
  let active := projects.filter isActiveProject
  let totalObligated := active.foldl (fun s p => s + p.obligatedBudget.getD 0) 0
  let totalUtilized := active.foldl (fun s p => s + p.totalBudgetUtilized.getD 0) 0
  let counts := statusCountsFold (active.map (·.status))
  let utilizationRate :=
    if 0 < totalBudgetAllocated then totalUtilized / totalBudgetAllocated * 100 else 0
  let status := if active.length = 0 then "ongoing" else deriveStatus counts
  { obligatedBudget := totalObligated
    totalBudgetUtilized := totalUtilized
    utilizationRate := utilizationRate
    projectCompleted := counts.completed
    projectDelayed := counts.delayed
    projectsOnTrack := counts.onTrack
    status := status }

/-- The derived fields persisted by `recalculateProjectMetrics` via
`ctx.db.patch`. -/
@[ext]
structure ProjectMetrics where
  projectCompleted : Nat
  projectDelayed : Nat
  projectsOnTrack : Nat
  status : String
  deriving Repr, DecidableEq

/-- Pure core of `recalculateProjectMetrics`
(convex/lib/projectAggregation.ts, lines 12 to 87): given the child
breakdowns of the project (before the deletion filter), computes the derived
fields that the function persists.  When the filtered list is empty the
source takes an early branch patching zero counts and status `ongoing`;
otherwise it runs the counting reduce and the priority chain. -/
def recalculateProjectMetrics (breakdowns : List Breakdown) : ProjectMetrics :=
  let active := breakdowns.filter isActiveBreakdown
  if active.length = 0 then
    { projectCompleted := 0, projectDelayed := 0, projectsOnTrack := 0
      status := "ongoing" }
  else
    let counts := statusCountsFold (active.map (·.status))
    { projectCompleted := counts.completed
      projectDelayed := counts.delayed
      projectsOnTrack := counts.onTrack
      status := deriveStatus counts }

/-- The `ctx.db.patch(budgetItemId, ...)` call at the end of
`recalculateBudgetItemMetrics`: writes the derived fields plus
`updatedAt`/`updatedBy` onto the budget item record. -/
def applyBudgetMetrics (b : BudgetItem) (m : BudgetMetrics) (now uid : Nat) :
    BudgetItem :=
  { b with
    obligatedBudget := some m.obligatedBudget
    totalBudgetUtilized := m.totalBudgetUtilized
    utilizationRate := m.utilizationRate
    projectCompleted := m.projectCompleted
    projectDelayed := m.projectDelayed
    projectsOnTrack := m.projectsOnTrack
    status := m.status
    updatedAt := now
    updatedBy := some uid }

/-- One full `recalculateBudgetItemMetrics` call viewed as a state update of
the budget item record, with the child projects it reads passed explicitly. -/
def recomputeBudgetItem (b : BudgetItem) (projects : List Project)
    (now uid : Nat) : BudgetItem :=
  applyBudgetMetrics b (recalculateBudgetItemMetrics b.totalBudgetAllocated projects) now uid

/-- The `ctx.db.patch(projectId, ...)` call of `recalculateProjectMetrics`:
writes the derived fields plus `updatedAt`/`updatedBy` onto the project
record. -/
def applyProjectMetrics (p : Project) (m : ProjectMetrics) (now uid : Nat) :
    Project :=
  { p with
    projectCompleted := m.projectCompleted
    projectDelayed := m.projectDelayed
    projectsOnTrack := m.projectsOnTrack
    status := some m.status
    updatedAt := now
    updatedBy := some uid }

/-- One full `recalculateProjectMetrics` call viewed as a state update of the
project record, with the child breakdowns it reads passed explicitly. -/
def recomputeProject (p : Project) (breakdowns : List Breakdown)
    (now uid : Nat) : Project :=
  applyProjectMetrics p (recalculateProjectMetrics breakdowns) now uid

/-- The per-breakdown patch of the cascade loop in `moveToTrash`
(convex/projects.ts, lines 91 to 97): `isDeleted: true, deletedAt: now,
deletedBy: userId`. -/
def markBreakdownDeleted (now uid : Nat) (b : Breakdown) : Breakdown :=
  { b with isDeleted := some true, deletedAt := some now, deletedBy := some uid }

/-- The `moveToTrash` mutation (convex/projects.ts, lines 63 to 115)
restricted to its writes on the project and its child breakdowns: the project
is patched with the deletion flags, and the cascade loop iterates over ALL
breakdowns returned by the `projectId` index query (the query carries no
`isDeleted` filter), patching each one.  The parent recompute and the
activity log entry do not touch these records and are modelled separately. -/
def moveToTrash (p : Project) (breakdowns : List Breakdown) (now uid : Nat) :
    Project × List Breakdown :=
  ({ p with
      isDeleted := some true
      deletedAt := some now
      deletedBy := some uid
      updatedAt := now
      updatedBy := some uid },
   breakdowns.map (markBreakdownDeleted now uid))

/-! ### Association-list database state

The mutations `projects.update` and `budgetItems.remove` read and write
several tables.  Tables are embedded as association lists from ids to
records; `find?`, `map`-patching and `filter`-deletion mirror `db.get`,
`db.patch` and `db.delete`. -/

/-- `db.get`: the first record stored under a key. -/
def lookupAssoc (l : List (Nat × α)) (k : Nat) : Option α :=
  (l.find? (fun e => e.1 == k)).map (·.2)

/-- `db.patch`: rewrite the record stored under a key with a function. -/
def patchAssoc (l : List (Nat × α)) (k : Nat) (f : α → α) : List (Nat × α) :=
  l.map (fun e => if e.1 = k then (e.1, f e.2) else e)

/-- A minimal activity-log row: the parts of a `budgetActivities` or
`projectActivities` insert that the state-level claims mention.  The diff
payload of a project entry is computed by `projectActivityDiff`, verified
separately. -/
structure ActivityEntry where
  action : String
  targetId : Nat
  performedBy : Nat
  reason : Option String
  deriving Repr, DecidableEq

/-- The database state visible to the state-level mutations. -/
structure Db where
  budgetItems : List (Nat × BudgetItem)
  projects : List (Nat × Project)
  users : List Nat
  budgetActivities : List ActivityEntry
  projectActivities : List ActivityEntry
  deriving Repr, DecidableEq

/-- The child projects of a budget item as returned by the
`withIndex("budgetItemId", ...)` query, before the deletion filter (the
deletion filter is applied inside `recalculateBudgetItemMetrics`). -/
def childProjects (projects : List (Nat × Project)) (bid : Nat) : List Project :=
  (projects.filter (fun e => e.2.budgetItemId = some bid)).map (·.2)

/-- `recalculateBudgetItemMetrics` as a state transition on `Db`: reads the
child projects and the budget item record (`none` models the
`"Budget item not found"` throw), then patches the budget item. -/
def recalcBudgetDb (db : Db) (bid now uid : Nat) : Option Db :=
  match lookupAssoc db.budgetItems bid with
  | none => none
  | some bi =>
    let m := recalculateBudgetItemMetrics bi.totalBudgetAllocated
      (childProjects db.projects bid)
    some { db with
      budgetItems := patchAssoc db.budgetItems bid
        (fun b => applyBudgetMetrics b m now uid) }

/-- `logProjectActivity` as a state transition on `Db`: resolves the acting
user (`none` models the `"User not found for logging"` throw) and appends one
entry to `projectActivities`. -/
def logProjectActivityDb (db : Db) (uid : Nat) (entry : ActivityEntry) :
    Option Db :=
  if uid ∈ db.users then
    some { db with projectActivities := db.projectActivities ++ [entry] }
  else none

/-- The caller-editable fields of the `projects.update` mutation arguments
that the embedding tracks. -/
structure UpdateArgs where
  budgetItemId : Option Nat
  totalBudgetAllocated : ℚ
  obligatedBudget : Option ℚ
  totalBudgetUtilized : ℚ
  reason : Option String
  deriving Repr, DecidableEq

/-- The `ctx.db.patch(args.id, ...)` call of `projects.update`: overwrites
the editable fields and recomputes the project-level `utilizationRate` from
the new allocation and utilization. -/
def applyUpdateArgs (args : UpdateArgs) (now uid : Nat) (p : Project) : Project :=
  { p with
    budgetItemId := args.budgetItemId
    totalBudgetAllocated := args.totalBudgetAllocated
    obligatedBudget := args.obligatedBudget
    totalBudgetUtilized := some args.totalBudgetUtilized
    utilizationRate :=
      if 0 < args.totalBudgetAllocated then
        args.totalBudgetUtilized / args.totalBudgetAllocated * 100
      else 0
    updatedAt := now
    updatedBy := some uid }

/-- The `projects.update` mutation (convex/projects.ts, lines 252 to 320) as
a state transition.  Returns the new state together with the list of budget
item ids passed to `recalculateBudgetItemMetrics`, in call order; `none`
models any thrown error (project missing, new budget item missing, actor
missing for logging, budget item missing during recompute).  The recompute
trigger mirrors the source exactly:
`if (oldBudgetItemId && oldBudgetItemId !== args.budgetItemId)` recompute the
old parent, then `if (args.budgetItemId)` recompute the new parent. -/
def updateProject (db : Db) (pid : Nat) (args : UpdateArgs) (now uid : Nat) :
    Option (Db × List Nat) :=
  match lookupAssoc db.projects pid with
  | none => none
  | some existing =>
    let newParentOk := match args.budgetItemId with
      | some b => (lookupAssoc db.budgetItems b).isSome
      | none => true
    if newParentOk then
      let oldBudgetItemId := existing.budgetItemId
      let db1 := { db with
        projects := patchAssoc db.projects pid (applyUpdateArgs args now uid) }
      match logProjectActivityDb db1 uid
        { action := "updated", targetId := pid, performedBy := uid
          reason := args.reason } with
      | none => none
      | some db2 =>
        let step1 : Option (Db × List Nat) :=
          match oldBudgetItemId with
          | some a =>
            if args.budgetItemId ≠ some a then
              (recalcBudgetDb db2 a now uid).map (fun d => (d, [a]))
            else some (db2, [])
          | none => some (db2, [])
        match step1 with
        | none => none
        | some (db3, calls1) =>
          match args.budgetItemId with
          | some b =>
            (recalcBudgetDb db3 b now uid).map (fun d => (d, calls1 ++ [b]))
          | none => some (db3, calls1)
    else none

/-- Modelled from the spec: `logBudgetActivity` (convex/lib/budgetActivityLogger.ts
is not part of the sources; spec section 4.2 specifies that a log call
inserts exactly one append-only entry, after resolving the actor).  Appends
one entry to `budgetActivities`. -/
def logBudgetActivityDb (db : Db) (uid : Nat) (entry : ActivityEntry) :
    Option Db :=
  if uid ∈ db.users then
    some { db with budgetActivities := db.budgetActivities ++ [entry] }
  else none

/-- The `budgetItems.remove` mutation (convex/budgetItems.ts, lines 246 to
279) as a state transition with explicit state threading: the result pairs
the database state as left by the handler with either the returned id or the
thrown error message.  A throw happens before any write, so the input state
is returned unchanged on every error path.  The linked-projects query uses
only the `budgetItemId` index, with no `isDeleted` filter. -/
def removeBudgetItem (db : Db) (id uid : Nat) (reason : Option String) :
    Db × Except String Nat :=
  match lookupAssoc db.budgetItems id with
  | none => (db, .error "Budget item not found")
  | some existing =>
    if existing.createdBy ≠ uid then (db, .error "Not authorized")
    else
      let projects := db.projects.filter (fun e => e.2.budgetItemId = some id)
      if 0 < projects.length then
        (db, .error ("Cannot delete budget item with " ++
          toString projects.length ++ " linked project(s)."))
      else
        match logBudgetActivityDb db uid
          { action := "deleted", targetId := id, performedBy := uid
            reason := some (reason.getD "Manual deletion") } with
        | none => (db, .error "User not found for logging")
        | some db1 =>
          ({ db1 with budgetItems := db1.budgetItems.filter (fun e => e.1 ≠ id) },
           .ok id)

/-! ### Change diffing (convex/lib/projectActivityLogger.ts)

`logProjectActivity` compares the two record snapshots field by field using
`JSON.stringify` on each value.  Values are embedded as a JSON value tree;
`stringifyVal` is the serialization used for the comparison.  A field absent
from a record reads as JavaScript `undefined`, whose serialization is the
non-string `undefined`; both sides are therefore compared as
`Option String`, with `none` for an absent field. -/

/-- A JSON value as stored in a Convex record. -/
inductive JsonVal where
  | null : JsonVal
  | bool (b : Bool) : JsonVal
  | num (q : ℚ) : JsonVal
  | str (s : String) : JsonVal
  | arr (xs : List JsonVal) : JsonVal
  | obj (fields : List (String × JsonVal)) : JsonVal
  deriving Repr

mutual

/-- `JSON.stringify` on a single value.  String escaping is simplified to
plain quoting: only equality of outputs matters to the diff, and quoting is
injective on this value type. -/
def stringifyVal : JsonVal → String
  | .null => "null"
  | .bool b => if b then "true" else "false"
  | .num q => toString q
  | .str s => "\"" ++ s ++ "\""
  | .arr xs => "[" ++ stringifyList xs ++ "]"
  | .obj fs => "\x7b" ++ stringifyFields fs ++ "\x7d"

/-- Comma-separated serialization of an array body. -/
def stringifyList : List JsonVal → String
  | [] => ""
  | [x] => stringifyVal x
  | x :: y :: xs => stringifyVal x ++ "," ++ stringifyList (y :: xs)

/-- Comma-separated serialization of an object body. -/
def stringifyFields : List (String × JsonVal) → String
  | [] => ""
  | [(k, x)] => "\"" ++ k ++ "\":" ++ stringifyVal x
  | (k, x) :: y :: fs =>
    "\"" ++ k ++ "\":" ++ stringifyVal x ++ "," ++ stringifyFields (y :: fs)

end

/-- A record snapshot: field names with their values, in storage order. -/
def JsonRecord := List (String × JsonVal)

/-- `record[key]` in JavaScript: the first value stored under a field name,
`none` when the field is absent (reads as `undefined`). -/
def recordGet (r : JsonRecord) (k : String) : Option JsonVal :=
  (r.find? (fun e => e.1 == k)).map (·.2)

/-- `Object.keys` of a snapshot. -/
def recordKeys (r : JsonRecord) : List String :=
  r.map (·.1)

/-- Iteration order of `new Set([...prevKeys, ...nextKeys])`: insertion
order, keeping the first occurrence of each key. -/
def dedupKeys : List String → List String
  | [] => []
  | k :: ks => k :: (dedupKeys ks).filter (fun x => x ≠ k)

/-- The fixed ignore-list of the diff loop:
`["_id", "_creationTime", "updatedAt", "updatedBy", "createdAt", "createdBy"]`. -/
def ignoredFields : List String :=
  ["_id", "_creationTime", "updatedAt", "updatedBy", "createdAt", "createdBy"]

/-- The comparison `JSON.stringify(pVal) !== JSON.stringify(nVal)` for one
key, with `none` for an absent field (JavaScript `undefined`, which
`JSON.stringify` maps to the non-string `undefined`). -/
def serializedDiffer (prev next : JsonRecord) (k : String) : Bool :=
  (recordGet prev k).map stringifyVal ≠ (recordGet next k).map stringifyVal

/-- The `changedFields` computation of `logProjectActivity`
(convex/lib/projectActivityLogger.ts, lines 32 to 44), for an `updated`
call with both snapshots present: iterate the union of the key sets in
insertion order, skip the ignore-list, and keep the keys whose serialized
values differ. -/
def changedFieldsOf (prev next : JsonRecord) : List String :=
  (dedupKeys (recordKeys prev ++ recordKeys next)).filter
    (fun k => k ∉ ignoredFields ∧ serializedDiffer prev next k)

/-- The `changeSummary` object built by `logProjectActivity`
(lines 46 to 57).  Absent flags are modelled as `false`, absent scalars as
`none`. -/
structure ChangeSummary where
  budgetChanged : Bool
  oldBudget : Option JsonVal
  newBudget : Option JsonVal
  scheduleChanged : Bool
  managerChanged : Bool

/-- The diff block of `logProjectActivity` for an `updated` call with both
`previousValues` and `newValues` present: the changed-field list and the
change summary. -/
def projectActivityDiff (prev next : JsonRecord) :
    List String × ChangeSummary :=
  let changedFields := changedFieldsOf prev next
  let summary : ChangeSummary :=
    { budgetChanged := "totalBudgetAllocated" ∈ changedFields
      oldBudget :=
        if "totalBudgetAllocated" ∈ changedFields then
          recordGet prev "totalBudgetAllocated"
        else none
      newBudget :=
        if "totalBudgetAllocated" ∈ changedFields then
          recordGet next "totalBudgetAllocated"
        else none
      scheduleChanged := "targetDateCompletion" ∈ changedFields
      managerChanged := "projectManagerId" ∈ changedFields }
  (changedFields, summary)

/-! ### Sample records for concrete evaluations -/

/-- A baseline project record; witnesses customize individual fields. -/
def sampleProject : Project :=
  { budgetItemId := none, totalBudgetAllocated := 0, obligatedBudget := none
    totalBudgetUtilized := none, utilizationRate := 0, projectCompleted := 0
    projectDelayed := 0, projectsOnTrack := 0, status := none, isDeleted := none
    deletedAt := none, deletedBy := none, updatedAt := 0, updatedBy := none
    createdBy := 0 }

/-- A baseline breakdown record; witnesses customize individual fields. -/
def sampleBreakdown : Breakdown :=
  { status := none, isDeleted := none, deletedAt := none, deletedBy := none }

/-- A baseline budget item record; witnesses customize individual fields. -/
def sampleBudgetItem : BudgetItem :=
  { totalBudgetAllocated := 0, obligatedBudget := none, totalBudgetUtilized := 0
    utilizationRate := 0, projectCompleted := 0, projectDelayed := 0
    projectsOnTrack := 0, status := "ongoing", updatedAt := 0, updatedBy := none
    createdBy := 0 }

/-! ### Helper lemmas -/

/-- The status-counting loop, started from any accumulator, adds the
per-status occurrence counts of the list. -/
lemma foldl_statusCountStep_eq (l : List (Option String)) (acc : StatusCounts) :
    l.foldl statusCountStep acc =
      ⟨acc.completed + l.countP (fun s => s = some "completed"),
       acc.delayed + l.countP (fun s => s = some "delayed"),
       acc.onTrack + l.countP (fun s => s = some "ongoing")⟩ := by
  induction l generalizing acc with
  | nil => simp
  | cons x xs ih =>
    rw [List.foldl_cons, ih]
    by_cases h1 : x = some "completed"
    · simp [statusCountStep, h1, List.countP_cons, Nat.add_assoc, Nat.add_comm 1]
    · by_cases h2 : x = some "delayed"
      · simp [statusCountStep, h1, h2, List.countP_cons, Nat.add_assoc,
          Nat.add_comm 1]
      · by_cases h3 : x = some "ongoing"
        · simp [statusCountStep, h1, h2, h3, List.countP_cons, Nat.add_assoc,
            Nat.add_comm 1]
        · simp [statusCountStep, h1, h2, h3, List.countP_cons]

/-- The status counts are the per-status occurrence counts. -/
lemma statusCountsFold_eq (l : List (Option String)) :
    statusCountsFold l =
      ⟨l.countP (fun s => s = some "completed"),
       l.countP (fun s => s = some "delayed"),
       l.countP (fun s => s = some "ongoing")⟩ := by
  simp [statusCountsFold, foldl_statusCountStep_eq]

/-- A soft-deleted project is dropped by the query filter. -/
lemma filter_drop_deleted_project (l1 l2 : List Project) (p : Project)
    (hp : p.isDeleted = some true) :
    (l1 ++ p :: l2).filter isActiveProject = (l1 ++ l2).filter isActiveProject := by
  simp [List.filter_append, isActiveProject, hp]

/-- A soft-deleted breakdown is dropped by the query filter. -/
lemma filter_drop_deleted_breakdown (l1 l2 : List Breakdown) (b : Breakdown)
    (hb : b.isDeleted = some true) :
    (l1 ++ b :: l2).filter isActiveBreakdown = (l1 ++ l2).filter isActiveBreakdown := by
  simp [List.filter_append, isActiveBreakdown, hb]

/-- The derived budget metrics depend only on the filtered child list. -/
lemma recalculateBudgetItemMetrics_congr (alloc : ℚ) (ps qs : List Project)
    (h : ps.filter isActiveProject = qs.filter isActiveProject) :
    recalculateBudgetItemMetrics alloc ps = recalculateBudgetItemMetrics alloc qs := by
  simp only [recalculateBudgetItemMetrics, h]

/-- The derived project metrics depend only on the filtered child list. -/
lemma recalculateProjectMetrics_congr (bs cs : List Breakdown)
    (h : bs.filter isActiveBreakdown = cs.filter isActiveBreakdown) :
    recalculateProjectMetrics bs = recalculateProjectMetrics cs := by
  simp only [recalculateProjectMetrics, h]

/-! ### Claims -/

/-- C1: soft-deleted children are excluded from every recompute: a child
project with `isDeleted = true` contributes nothing to the budget item
metrics computed by `recalculateBudgetItemMetrics`, and a child breakdown
with `isDeleted = true` contributes nothing to the project metrics computed
by `recalculateProjectMetrics` — inserting such a child anywhere in the
child list leaves every persisted total, count and status unchanged. -/
theorem recompute_excludes_soft_deleted
    (alloc : ℚ) (l1 l2 : List Project) (p : Project)
    (hp : p.isDeleted = some true)
    (m1 m2 : List Breakdown) (b : Breakdown)
    (hb : b.isDeleted = some true) :
    recalculateBudgetItemMetrics alloc (l1 ++ p :: l2)
      = recalculateBudgetItemMetrics alloc (l1 ++ l2) ∧
    recalculateProjectMetrics (m1 ++ b :: m2)
      = recalculateProjectMetrics (m1 ++ m2) :=
  ⟨recalculateBudgetItemMetrics_congr _ _ _ (filter_drop_deleted_project l1 l2 p hp),
   recalculateProjectMetrics_congr _ _ (filter_drop_deleted_breakdown m1 m2 b hb)⟩

/-- C1 witness: the spec example — a project with three breakdowns, one of
them soft-deleted with status `completed`, yields the same metrics as the two
active ones alone, and the completed count is 2. -/
theorem recompute_excludes_soft_deleted_witness :
    ({ sampleBreakdown with isDeleted := some true, status := some "completed" } :
        Breakdown).isDeleted = some true ∧
    recalculateProjectMetrics
      [{ sampleBreakdown with status := some "completed" },
       { sampleBreakdown with isDeleted := some true, status := some "completed" },
       { sampleBreakdown with status := some "completed" }]
      = recalculateProjectMetrics
        [{ sampleBreakdown with status := some "completed" },
         { sampleBreakdown with status := some "completed" }] ∧
    (recalculateProjectMetrics
      [{ sampleBreakdown with status := some "completed" },
       { sampleBreakdown with isDeleted := some true, status := some "completed" },
       { sampleBreakdown with status := some "completed" }]).projectCompleted = 2 := by
  refine ⟨rfl, ?_, by decide⟩
  simpa using
    (recompute_excludes_soft_deleted 0 [] [] { sampleProject with isDeleted := some true }
      rfl [{ sampleBreakdown with status := some "completed" }]
      [{ sampleBreakdown with status := some "completed" }]
      { sampleBreakdown with isDeleted := some true, status := some "completed" }
      rfl).2

/-- The status-priority chain, unfolded case by case. -/
lemma deriveStatus_spec (c : StatusCounts) :
    (0 < c.onTrack → deriveStatus c = "ongoing") ∧
    (c.onTrack = 0 → 0 < c.delayed → deriveStatus c = "delayed") ∧
    (c.onTrack = 0 → c.delayed = 0 → 0 < c.completed → deriveStatus c = "completed") ∧
    (c.onTrack = 0 → c.delayed = 0 → c.completed = 0 → deriveStatus c = "ongoing") := by
  unfold deriveStatus
  refine ⟨fun h => by rw [if_pos h], fun h0 hd => ?_, fun h0 hd hc => ?_,
    fun h0 hd hc => ?_⟩
  · rw [if_neg (by omega), if_pos hd]
  · rw [if_neg (by omega), if_neg (by omega), if_pos hc]
  · rw [if_neg (by omega), if_neg (by omega), if_neg (by omega)]

/-- The persisted budget item status is the priority chain applied to the
persisted counts (the zero-children default agrees with the chain). -/
lemma recalculateBudgetItemMetrics_status (alloc : ℚ) (ps : List Project) :
    (recalculateBudgetItemMetrics alloc ps).status =
      deriveStatus ⟨(recalculateBudgetItemMetrics alloc ps).projectCompleted,
        (recalculateBudgetItemMetrics alloc ps).projectDelayed,
        (recalculateBudgetItemMetrics alloc ps).projectsOnTrack⟩ := by
  simp only [recalculateBudgetItemMetrics]
  split
  · next h =>
    rw [List.length_eq_zero] at h
    simp [h, statusCountsFold, deriveStatus]
  · rfl

/-- The persisted project status is the priority chain applied to the
persisted counts (the zero-children early branch agrees with the chain). -/
lemma recalculateProjectMetrics_status (bs : List Breakdown) :
    (recalculateProjectMetrics bs).status =
      deriveStatus ⟨(recalculateProjectMetrics bs).projectCompleted,
        (recalculateProjectMetrics bs).projectDelayed,
        (recalculateProjectMetrics bs).projectsOnTrack⟩ := by
  simp only [recalculateProjectMetrics]
  split
  · simp [deriveStatus]
  · rfl

/-- C2: the derived status of a recompute follows the priority rule over the
active-children status counts, for both aggregators: a positive ongoing
count forces status `ongoing` whatever the other counts are; otherwise a
positive delayed count forces `delayed`; otherwise a positive completed
count forces `completed`; otherwise the status is `ongoing`. -/
theorem status_priority_rule (alloc : ℚ) (ps : List Project) (bs : List Breakdown) :
    (0 < (recalculateBudgetItemMetrics alloc ps).projectsOnTrack →
      (recalculateBudgetItemMetrics alloc ps).status = "ongoing") ∧
    ((recalculateBudgetItemMetrics alloc ps).projectsOnTrack = 0 →
      0 < (recalculateBudgetItemMetrics alloc ps).projectDelayed →
      (recalculateBudgetItemMetrics alloc ps).status = "delayed") ∧
    ((recalculateBudgetItemMetrics alloc ps).projectsOnTrack = 0 →
      (recalculateBudgetItemMetrics alloc ps).projectDelayed = 0 →
      0 < (recalculateBudgetItemMetrics alloc ps).projectCompleted →
      (recalculateBudgetItemMetrics alloc ps).status = "completed") ∧
    ((recalculateBudgetItemMetrics alloc ps).projectsOnTrack = 0 →
      (recalculateBudgetItemMetrics alloc ps).projectDelayed = 0 →
      (recalculateBudgetItemMetrics alloc ps).projectCompleted = 0 →
      (recalculateBudgetItemMetrics alloc ps).status = "ongoing") ∧
    (0 < (recalculateProjectMetrics bs).projectsOnTrack →
      (recalculateProjectMetrics bs).status = "ongoing") ∧
    ((recalculateProjectMetrics bs).projectsOnTrack = 0 →
      0 < (recalculateProjectMetrics bs).projectDelayed →
      (recalculateProjectMetrics bs).status = "delayed") ∧
    ((recalculateProjectMetrics bs).projectsOnTrack = 0 →
      (recalculateProjectMetrics bs).projectDelayed = 0 →
      0 < (recalculateProjectMetrics bs).projectCompleted →
      (recalculateProjectMetrics bs).status = "completed") ∧
    ((recalculateProjectMetrics bs).projectsOnTrack = 0 →
      (recalculateProjectMetrics bs).projectDelayed = 0 →
      (recalculateProjectMetrics bs).projectCompleted = 0 →
      (recalculateProjectMetrics bs).status = "ongoing") := by
  have hbs := recalculateBudgetItemMetrics_status alloc ps
  have hps := recalculateProjectMetrics_status bs
  have hb := deriveStatus_spec ⟨(recalculateBudgetItemMetrics alloc ps).projectCompleted,
    (recalculateBudgetItemMetrics alloc ps).projectDelayed,
    (recalculateBudgetItemMetrics alloc ps).projectsOnTrack⟩
  have hp := deriveStatus_spec ⟨(recalculateProjectMetrics bs).projectCompleted,
    (recalculateProjectMetrics bs).projectDelayed,
    (recalculateProjectMetrics bs).projectsOnTrack⟩
  rw [hbs, hps]
  exact ⟨hb.1, hb.2.1, hb.2.2.1, hb.2.2.2, hp.1, hp.2.1, hp.2.2.1, hp.2.2.2⟩

set_option maxHeartbeats 1000000 in
/-- C2 witness: the spec example — 1 ongoing plus 10 completed plus 5
delayed children yields status `ongoing`. -/
theorem status_priority_rule_witness :
    0 < (recalculateBudgetItemMetrics 0
      ({ sampleProject with status := some "ongoing" } ::
        (List.replicate 10 { sampleProject with status := some "completed" } ++
         List.replicate 5 { sampleProject with status := some "delayed" }))).projectsOnTrack ∧
    (recalculateBudgetItemMetrics 0
      ({ sampleProject with status := some "ongoing" } ::
        (List.replicate 10 { sampleProject with status := some "completed" } ++
         List.replicate 5 { sampleProject with status := some "delayed" }))).status
      = "ongoing" ∧
    (recalculateProjectMetrics
      [{ sampleBreakdown with status := some "ongoing" },
       { sampleBreakdown with status := some "completed" },
       { sampleBreakdown with status := some "delayed" }]).status = "ongoing" :=
  ⟨by decide,
   (status_priority_rule 0
      ({ sampleProject with status := some "ongoing" } ::
        (List.replicate 10 { sampleProject with status := some "completed" } ++
         List.replicate 5 { sampleProject with status := some "delayed" })) []).1
     (by decide),
   (status_priority_rule 0 []
      [{ sampleBreakdown with status := some "ongoing" },
       { sampleBreakdown with status := some "completed" },
       { sampleBreakdown with status := some "delayed" }]).2.2.2.2.1
     (by decide)⟩

/-- Inserting one status into the counted list adds one to exactly the
matching counter. -/
lemma statusCountsFold_insert (s1 s2 : List (Option String)) (x : Option String) :
    statusCountsFold (s1 ++ x :: s2) =
      ⟨(statusCountsFold (s1 ++ s2)).completed +
          (if x = some "completed" then 1 else 0),
       (statusCountsFold (s1 ++ s2)).delayed +
          (if x = some "delayed" then 1 else 0),
       (statusCountsFold (s1 ++ s2)).onTrack +
          (if x = some "ongoing" then 1 else 0)⟩ := by
  simp only [statusCountsFold_eq, List.countP_append, List.countP_cons,
    StatusCounts.mk.injEq]
  refine ⟨?_, ?_, ?_⟩ <;> split <;> simp_all <;> omega

/-- Each persisted count of a project recompute is the occurrence count of
the matching status among the active breakdowns (the zero-children branch
agrees, since every count of an empty list is zero). -/
lemma recalculateProjectMetrics_counts (bs : List Breakdown) :
    (recalculateProjectMetrics bs).projectCompleted
      = ((bs.filter isActiveBreakdown).map (·.status)).countP
          (fun s => s = some "completed") ∧
    (recalculateProjectMetrics bs).projectDelayed
      = ((bs.filter isActiveBreakdown).map (·.status)).countP
          (fun s => s = some "delayed") ∧
    (recalculateProjectMetrics bs).projectsOnTrack
      = ((bs.filter isActiveBreakdown).map (·.status)).countP
          (fun s => s = some "ongoing") := by
  by_cases h : (bs.filter isActiveBreakdown).length = 0
  · rw [List.length_eq_zero] at h
    simp [recalculateProjectMetrics, h]
  · simp [recalculateProjectMetrics, h, statusCountsFold_eq]

/-- An active breakdown passes the query filter. -/
lemma filter_keep_active_breakdown (l1 l2 : List Breakdown) (b : Breakdown)
    (hb : b.isDeleted ≠ some true) :
    (l1 ++ b :: l2).filter isActiveBreakdown =
      l1.filter isActiveBreakdown ++ b :: l2.filter isActiveBreakdown := by
  simp [List.filter_append, isActiveBreakdown, hb]

/-- C3 counterexample: a project whose single active breakdown has status
`On-Hold` gets on-track count 0 from `recalculateProjectMetrics`, refuting
the claim that an On-Hold breakdown counts toward the ongoing count. -/
theorem on_hold_counts_toward_none_counterexample :
    (recalculateProjectMetrics
      [{ sampleBreakdown with status := some "On-Hold" }]).projectsOnTrack = 0 ∧
    ¬ 0 < (recalculateProjectMetrics
      [{ sampleBreakdown with status := some "On-Hold" }]).projectsOnTrack := by
  decide

/-- C3 (amended): `recalculateProjectMetrics` counts active breakdowns by
exact status string: an active breakdown with status `ongoing` adds one to
the on-track count, while an active breakdown whose status is `On-Hold`,
`Cancelled`, or missing counts toward none of the three counts and leaves
the whole recompute result unchanged. -/
theorem breakdown_status_counting (l1 l2 : List Breakdown) (b : Breakdown)
    (hb : b.isDeleted ≠ some true) :
    (b.status = some "ongoing" →
      (recalculateProjectMetrics (l1 ++ b :: l2)).projectsOnTrack
        = (recalculateProjectMetrics (l1 ++ l2)).projectsOnTrack + 1) ∧
    ((b.status = some "On-Hold" ∨ b.status = some "Cancelled" ∨ b.status = none) →
      recalculateProjectMetrics (l1 ++ b :: l2) = recalculateProjectMetrics (l1 ++ l2)) := by
  have hins : ((l1 ++ b :: l2).filter isActiveBreakdown).map (·.status)
      = (l1.filter isActiveBreakdown).map (·.status) ++ b.status ::
        (l2.filter isActiveBreakdown).map (·.status) := by
    rw [filter_keep_active_breakdown l1 l2 b hb]
    simp
  have hflat : ((l1 ++ l2).filter isActiveBreakdown).map (·.status)
      = (l1.filter isActiveBreakdown).map (·.status) ++
        (l2.filter isActiveBreakdown).map (·.status) := by
    simp [List.filter_append]
  obtain ⟨hc1, hd1, ho1⟩ := recalculateProjectMetrics_counts (l1 ++ b :: l2)
  obtain ⟨hc2, hd2, ho2⟩ := recalculateProjectMetrics_counts (l1 ++ l2)
  constructor
  · intro hs
    rw [ho1, ho2, hins, hflat, hs]
    simp [List.countP_append, List.countP_cons]
    omega
  · intro hs
    have hnc : (b.status = some "completed") = False := by
      rcases hs with h | h | h <;> simp [h]
    have hnd : (b.status = some "delayed") = False := by
      rcases hs with h | h | h <;> simp [h]
    have hno : (b.status = some "ongoing") = False := by
      rcases hs with h | h | h <;> simp [h]
    have hcount : ∀ p : Option String → Bool,
        p b.status = false →
        (((l1 ++ b :: l2).filter isActiveBreakdown).map (·.status)).countP p
          = (((l1 ++ l2).filter isActiveBreakdown).map (·.status)).countP p := by
      intro p hp
      rw [hins, hflat]
      simp [List.countP_append, List.countP_cons, hp]
    have ec : (recalculateProjectMetrics (l1 ++ b :: l2)).projectCompleted
        = (recalculateProjectMetrics (l1 ++ l2)).projectCompleted := by
      rw [hc1, hc2, hcount _ (by simp [hnc])]
    have ed : (recalculateProjectMetrics (l1 ++ b :: l2)).projectDelayed
        = (recalculateProjectMetrics (l1 ++ l2)).projectDelayed := by
      rw [hd1, hd2, hcount _ (by simp [hnd])]
    have eo : (recalculateProjectMetrics (l1 ++ b :: l2)).projectsOnTrack
        = (recalculateProjectMetrics (l1 ++ l2)).projectsOnTrack := by
      rw [ho1, ho2, hcount _ (by simp [hno])]
    have es : (recalculateProjectMetrics (l1 ++ b :: l2)).status
        = (recalculateProjectMetrics (l1 ++ l2)).status := by
      rw [recalculateProjectMetrics_status, recalculateProjectMetrics_status,
        ec, ed, eo]
    exact ProjectMetrics.ext ec ed eo es

/-- C3 (amended) witness: an active `ongoing` breakdown adds one to the
on-track count, and an active `On-Hold` breakdown changes nothing. -/
theorem breakdown_status_counting_witness :
    ({ sampleBreakdown with status := some "ongoing" } : Breakdown).isDeleted
        ≠ some true ∧
    (recalculateProjectMetrics
        [{ sampleBreakdown with status := some "ongoing" },
         { sampleBreakdown with status := some "completed" }]).projectsOnTrack
      = (recalculateProjectMetrics
          [{ sampleBreakdown with status := some "completed" }]).projectsOnTrack + 1 ∧
    recalculateProjectMetrics
        [{ sampleBreakdown with status := some "On-Hold" },
         { sampleBreakdown with status := some "completed" }]
      = recalculateProjectMetrics
          [{ sampleBreakdown with status := some "completed" }] := by
  refine ⟨by decide, ?_, ?_⟩
  · simpa using
      (breakdown_status_counting []
        [{ sampleBreakdown with status := some "completed" }]
        { sampleBreakdown with status := some "ongoing" } (by decide)).1 rfl
  · simpa using
      (breakdown_status_counting []
        [{ sampleBreakdown with status := some "completed" }]
        { sampleBreakdown with status := some "On-Hold" } (by decide)).2
        (Or.inl rfl)

/-- C4: the persisted utilization rate is the summed utilization of the
active child projects divided by the budget item's own allocation, times
100, when the allocation is positive, and exactly 0 otherwise (no division
by zero). -/
theorem utilization_rate_formula (alloc : ℚ) (ps : List Project) :
    (0 < alloc →
      (recalculateBudgetItemMetrics alloc ps).utilizationRate
        = (ps.filter isActiveProject).foldl
            (fun s p => s + p.totalBudgetUtilized.getD 0) 0 / alloc * 100) ∧
    (alloc ≤ 0 → (recalculateBudgetItemMetrics alloc ps).utilizationRate = 0) := by
  constructor
  · intro h
    simp [recalculateBudgetItemMetrics, h]
  · intro h
    have h' : ¬ 0 < alloc := not_lt.mpr h
    simp [recalculateBudgetItemMetrics, h']

/-- C4 witness: allocated 100000 with one active project at utilized 75000
gives rate 75; allocated 0 gives rate 0. -/
theorem utilization_rate_formula_witness :
    (0 : ℚ) < 100000 ∧
    (recalculateBudgetItemMetrics 100000
      [{ sampleProject with totalBudgetUtilized := some 75000 }]).utilizationRate
      = 75 ∧
    (0 : ℚ) ≤ 0 ∧
    (recalculateBudgetItemMetrics 0
      [{ sampleProject with totalBudgetUtilized := some 0 }]).utilizationRate
      = 0 := by
  refine ⟨by norm_num, ?_, le_refl 0,
    (utilization_rate_formula 0
      [{ sampleProject with totalBudgetUtilized := some 0 }]).2 (le_refl 0)⟩
  rw [(utilization_rate_formula 100000
    [{ sampleProject with totalBudgetUtilized := some 75000 }]).1 (by norm_num)]
  simp [isActiveProject, sampleProject]
  norm_num

/-- C5: recompute is idempotent — with the child list unchanged, a second
recompute persists exactly the derived fields of the first, for both the
budget item aggregator (totals, utilization rate, the three counts, and
status; possible because the patch never touches `totalBudgetAllocated`)
and the project aggregator (the three counts and status). -/
theorem recompute_idempotent (b : BudgetItem) (ps : List Project)
    (t1 t2 u1 u2 : Nat) (p : Project) (bs : List Breakdown) (s1 s2 v1 v2 : Nat) :
    ((recomputeBudgetItem (recomputeBudgetItem b ps t1 u1) ps t2 u2).obligatedBudget
        = (recomputeBudgetItem b ps t1 u1).obligatedBudget ∧
     (recomputeBudgetItem (recomputeBudgetItem b ps t1 u1) ps t2 u2).totalBudgetUtilized
        = (recomputeBudgetItem b ps t1 u1).totalBudgetUtilized ∧
     (recomputeBudgetItem (recomputeBudgetItem b ps t1 u1) ps t2 u2).utilizationRate
        = (recomputeBudgetItem b ps t1 u1).utilizationRate ∧
     (recomputeBudgetItem (recomputeBudgetItem b ps t1 u1) ps t2 u2).projectCompleted
        = (recomputeBudgetItem b ps t1 u1).projectCompleted ∧
     (recomputeBudgetItem (recomputeBudgetItem b ps t1 u1) ps t2 u2).projectDelayed
        = (recomputeBudgetItem b ps t1 u1).projectDelayed ∧
     (recomputeBudgetItem (recomputeBudgetItem b ps t1 u1) ps t2 u2).projectsOnTrack
        = (recomputeBudgetItem b ps t1 u1).projectsOnTrack ∧
     (recomputeBudgetItem (recomputeBudgetItem b ps t1 u1) ps t2 u2).status
        = (recomputeBudgetItem b ps t1 u1).status) ∧
    ((recomputeProject (recomputeProject p bs s1 v1) bs s2 v2).projectCompleted
        = (recomputeProject p bs s1 v1).projectCompleted ∧
     (recomputeProject (recomputeProject p bs s1 v1) bs s2 v2).projectDelayed
        = (recomputeProject p bs s1 v1).projectDelayed ∧
     (recomputeProject (recomputeProject p bs s1 v1) bs s2 v2).projectsOnTrack
        = (recomputeProject p bs s1 v1).projectsOnTrack ∧
     (recomputeProject (recomputeProject p bs s1 v1) bs s2 v2).status
        = (recomputeProject p bs s1 v1).status) :=
  ⟨⟨rfl, rfl, rfl, rfl, rfl, rfl, rfl⟩, ⟨rfl, rfl, rfl, rfl⟩⟩

/-- A breakdown already marked deleted, with a given deletion stamp. -/
def breakdownDeletedAt (t u : Nat) : Breakdown :=
  { sampleBreakdown with
      isDeleted := some true
      deletedAt := some t
      deletedBy := some u }

/-- C6 counterexample: a child breakdown already in the trash (deleted at
time 5 by user 1) is NOT left unchanged by `moveToTrash` — the cascade loop
iterates over every breakdown of the project and overwrites its deletion
stamp with the current time 10 and actor 2. -/
theorem moveToTrash_overwrites_deleted_counterexample :
    (moveToTrash sampleProject [breakdownDeletedAt 5 1] 10 2).2
      = [breakdownDeletedAt 10 2] ∧
    (moveToTrash sampleProject [breakdownDeletedAt 5 1] 10 2).2
      ≠ [breakdownDeletedAt 5 1] := by
  decide

/-- C6 (amended): `moveToTrash` sets the project deleted with the current
timestamp and actor, and cascades one level to ALL child breakdowns —
every breakdown of the project, already-deleted ones included, ends up with
`isDeleted = true` and the current deletion timestamp and actor (prior
stamps are overwritten). -/
theorem moveToTrash_cascades_all (p : Project) (bs : List Breakdown)
    (now uid : Nat) :
    ((moveToTrash p bs now uid).1.isDeleted = some true ∧
     (moveToTrash p bs now uid).1.deletedAt = some now ∧
     (moveToTrash p bs now uid).1.deletedBy = some uid) ∧
    (moveToTrash p bs now uid).2.length = bs.length ∧
    (∀ b, b ∈ (moveToTrash p bs now uid).2 →
      b.isDeleted = some true ∧ b.deletedAt = some now ∧ b.deletedBy = some uid) := by
  refine ⟨⟨rfl, rfl, rfl⟩, by simp [moveToTrash], ?_⟩
  intro b hb
  simp only [moveToTrash, List.mem_map] at hb
  obtain ⟨b0, _, rfl⟩ := hb
  exact ⟨rfl, rfl, rfl⟩

/-- C6 (amended) witness: trashing a project with one active and one
previously-deleted breakdown at time 10 by user 2 marks the project and
both breakdowns deleted at time 10 by user 2. -/
theorem moveToTrash_cascades_all_witness :
    (moveToTrash sampleProject [sampleBreakdown, breakdownDeletedAt 5 1]
      10 2).1.isDeleted = some true ∧
    breakdownDeletedAt 10 2 ∈
      (moveToTrash sampleProject [sampleBreakdown, breakdownDeletedAt 5 1]
        10 2).2 ∧
    (breakdownDeletedAt 10 2).deletedAt = some 10 :=
  ⟨(moveToTrash_cascades_all sampleProject
      [sampleBreakdown, breakdownDeletedAt 5 1] 10 2).1.1,
   by decide,
   ((moveToTrash_cascades_all sampleProject
      [sampleBreakdown, breakdownDeletedAt 5 1] 10 2).2.2 _ (by decide)).2.1⟩

/-! ### Association-list lemmas for the state-level mutations -/

/-- Looking up in a nonempty association list checks the head first. -/
lemma lookupAssoc_cons {α : Type} (e : Nat × α) (l : List (Nat × α)) (k : Nat) :
    lookupAssoc (e :: l) k = if e.1 = k then some e.2 else lookupAssoc l k := by
  by_cases h : e.1 = k
  · simp [lookupAssoc, List.find?_cons_of_pos, h]
  · simp [lookupAssoc, List.find?_cons_of_neg, h]

/-- Patching a key rewrites the record found under that key. -/
lemma lookupAssoc_patchAssoc_self {α : Type} (l : List (Nat × α)) (k : Nat)
    (f : α → α) :
    lookupAssoc (patchAssoc l k f) k = (lookupAssoc l k).map f := by
  induction l with
  | nil => rfl
  | cons e l ih =>
    by_cases h : e.1 = k
    · simp [patchAssoc, lookupAssoc_cons, h]
    · simp only [patchAssoc, List.map_cons, if_neg h] at ih ⊢
      rw [lookupAssoc_cons, lookupAssoc_cons, if_neg h, if_neg h, ih]

/-- Patching one key leaves every other key unchanged. -/
lemma lookupAssoc_patchAssoc_ne {α : Type} (l : List (Nat × α)) (k k' : Nat)
    (f : α → α) (h : k' ≠ k) :
    lookupAssoc (patchAssoc l k f) k' = lookupAssoc l k' := by
  induction l with
  | nil => rfl
  | cons e l ih =>
    by_cases he : e.1 = k
    · have h1 : ¬ e.1 = k' := by rw [he]; exact fun hc => h hc.symm
      simp only [patchAssoc, List.map_cons, if_pos he] at ih ⊢
      rw [lookupAssoc_cons, lookupAssoc_cons]
      simp only [h1, if_neg, ite_false]
      exact ih
    · simp only [patchAssoc, List.map_cons, if_neg he] at ih ⊢
      rw [lookupAssoc_cons, lookupAssoc_cons, ih]

/-- If the patch makes every record point away from budget item `a`, the
children of `a` after the patch are the children of `a` among the entries
with a different key. -/
lemma childProjects_patchAssoc_ne (ps : List (Nat × Project)) (pid : Nat)
    (f : Project → Project) (a : Nat) (hf : ∀ q, (f q).budgetItemId ≠ some a) :
    childProjects (patchAssoc ps pid f) a
      = childProjects (ps.filter (fun e => e.1 ≠ pid)) a := by
  induction ps with
  | nil => rfl
  | cons e ps ih =>
    by_cases h : e.1 = pid
    · simp [childProjects, patchAssoc, List.filter_cons, h, hf e.2] at *
      exact ih
    · simp only [childProjects, patchAssoc, List.map_cons, if_neg h,
        List.filter_cons] at *
      by_cases hb : e.2.budgetItemId = some a
      · simp [h, hb] at *
        exact ih
      · simp [h, hb] at *
        exact ih

/-- The record found under a key is an entry of the list. -/
lemma lookupAssoc_mem {α : Type} (l : List (Nat × α)) (k : Nat) (x : α)
    (h : lookupAssoc l k = some x) : (k, x) ∈ l := by
  unfold lookupAssoc at h
  cases hf : l.find? (fun e => e.1 == k) with
  | none => rw [hf] at h; simp at h
  | some e =>
    rw [hf] at h
    simp at h
    have hm := List.mem_of_find?_eq_some hf
    have hp := List.find?_some hf
    simp at hp
    have : e = (k, x) := by
      cases e
      simp_all
    rwa [this] at hm

/-- After the patch, the patched version of the record stored under the
patched key is one of the children of the budget item it now points to. -/
lemma mem_childProjects_patchAssoc (ps : List (Nat × Project)) (pid : Nat)
    (f : Project → Project) (b : Nat) (existing : Project)
    (h : lookupAssoc ps pid = some existing)
    (hf : (f existing).budgetItemId = some b) :
    f existing ∈ childProjects (patchAssoc ps pid f) b := by
  have hm : (pid, existing) ∈ ps := lookupAssoc_mem ps pid existing h
  have hm2 : (pid, f existing) ∈ patchAssoc ps pid f := by
    have := List.mem_map_of_mem
      (fun e : Nat × Project => if e.1 = pid then (e.1, f e.2) else e) hm
    simpa [patchAssoc] using this
  simp only [childProjects, List.mem_map]
  exact ⟨(pid, f existing), List.mem_filter.mpr ⟨hm2, by simp [hf]⟩, rfl⟩

/-- C7: recompute triggering when `projects.update` changes `budgetItemId`
from A to B.  If A and B are present and distinct, the update succeeds,
recomputes exactly A then B (each once), persists on A the aggregation of
its remaining children — the moved project, now pointing at B, is no longer
among A's children but is among B's — and persists on B the aggregation of
its children.  If A equals B, or either side is absent, only the parent
that exists is recomputed, exactly once. -/
theorem update_reparenting_recompute
    (db : Db) (pid : Nat) (args : UpdateArgs) (now uid : Nat)
    (existing : Project)
    (hpe : lookupAssoc db.projects pid = some existing)
    (hu : uid ∈ db.users) :
    (∀ a b bA bB, existing.budgetItemId = some a → args.budgetItemId = some b →
      a ≠ b →
      lookupAssoc db.budgetItems a = some bA →
      lookupAssoc db.budgetItems b = some bB →
      ∃ db2, updateProject db pid args now uid = some (db2, [a, b]) ∧
        db2.projects = patchAssoc db.projects pid (applyUpdateArgs args now uid) ∧
        lookupAssoc db2.budgetItems a
          = some (recomputeBudgetItem bA (childProjects db2.projects a) now uid) ∧
        lookupAssoc db2.budgetItems b
          = some (recomputeBudgetItem bB (childProjects db2.projects b) now uid) ∧
        childProjects db2.projects a
          = childProjects (db.projects.filter (fun e => e.1 ≠ pid)) a ∧
        applyUpdateArgs args now uid existing ∈ childProjects db2.projects b) ∧
    (∀ a bA, existing.budgetItemId = some a → args.budgetItemId = some a →
      lookupAssoc db.budgetItems a = some bA →
      ∃ db2, updateProject db pid args now uid = some (db2, [a])) ∧
    (∀ b bB, existing.budgetItemId = none → args.budgetItemId = some b →
      lookupAssoc db.budgetItems b = some bB →
      ∃ db2, updateProject db pid args now uid = some (db2, [b])) ∧
    (∀ a bA, existing.budgetItemId = some a → args.budgetItemId = none →
      lookupAssoc db.budgetItems a = some bA →
      ∃ db2, updateProject db pid args now uid = some (db2, [a])) ∧
    (existing.budgetItemId = none → args.budgetItemId = none →
      ∃ db2, updateProject db pid args now uid = some (db2, [])) := by
  refine ⟨?_, ?_, ?_, ?_, ?_⟩
  · intro a b bA bB hold hnew hab hbA hbB
    have hba : b ≠ a := Ne.symm hab
    have hfa : ∀ q : Project,
        (applyUpdateArgs args now uid q).budgetItemId ≠ some a := by
      intro q
      simp [applyUpdateArgs, hnew, hba]
    have hfb : (applyUpdateArgs args now uid existing).budgetItemId = some b := by
      simp [applyUpdateArgs, hnew]
    refine ⟨{ db with
        projects := patchAssoc db.projects pid (applyUpdateArgs args now uid)
        projectActivities := db.projectActivities ++
          [{ action := "updated", targetId := pid, performedBy := uid
             reason := args.reason }]
        budgetItems :=
          patchAssoc
            (patchAssoc db.budgetItems a
              (fun x => applyBudgetMetrics x
                (recalculateBudgetItemMetrics bA.totalBudgetAllocated
                  (childProjects
                    (patchAssoc db.projects pid (applyUpdateArgs args now uid)) a))
                now uid))
            b
            (fun x => applyBudgetMetrics x
              (recalculateBudgetItemMetrics bB.totalBudgetAllocated
                (childProjects
                  (patchAssoc db.projects pid (applyUpdateArgs args now uid)) b))
              now uid) }, ?_, rfl, ?_, ?_, ?_, ?_⟩
    · simp [updateProject, hpe, hnew, hbA, hbB, hold, logProjectActivityDb,
        recalcBudgetDb, hu, lookupAssoc_patchAssoc_ne, hba]
    · dsimp only
      rw [lookupAssoc_patchAssoc_ne _ b a _ hab, lookupAssoc_patchAssoc_self, hbA]
      rfl
    · dsimp only
      rw [lookupAssoc_patchAssoc_self, lookupAssoc_patchAssoc_ne _ a b _ hba, hbB]
      rfl
    · exact childProjects_patchAssoc_ne db.projects pid _ a hfa
    · exact mem_childProjects_patchAssoc db.projects pid _ b existing hpe hfb
  · intro a bA hold hnew hbA
    refine ⟨{ db with
        projects := patchAssoc db.projects pid (applyUpdateArgs args now uid)
        projectActivities := db.projectActivities ++
          [{ action := "updated", targetId := pid, performedBy := uid
             reason := args.reason }]
        budgetItems := patchAssoc db.budgetItems a
          (fun x => applyBudgetMetrics x
            (recalculateBudgetItemMetrics bA.totalBudgetAllocated
              (childProjects
                (patchAssoc db.projects pid (applyUpdateArgs args now uid)) a))
            now uid) }, ?_⟩
    simp [updateProject, hpe, hnew, hbA, hold, logProjectActivityDb,
      recalcBudgetDb, hu]
  · intro b bB hold hnew hbB
    refine ⟨{ db with
        projects := patchAssoc db.projects pid (applyUpdateArgs args now uid)
        projectActivities := db.projectActivities ++
          [{ action := "updated", targetId := pid, performedBy := uid
             reason := args.reason }]
        budgetItems := patchAssoc db.budgetItems b
          (fun x => applyBudgetMetrics x
            (recalculateBudgetItemMetrics bB.totalBudgetAllocated
              (childProjects
                (patchAssoc db.projects pid (applyUpdateArgs args now uid)) b))
            now uid) }, ?_⟩
    simp [updateProject, hpe, hnew, hbB, hold, logProjectActivityDb,
      recalcBudgetDb, hu]
  · intro a bA hold hnew hbA
    refine ⟨{ db with
        projects := patchAssoc db.projects pid (applyUpdateArgs args now uid)
        projectActivities := db.projectActivities ++
          [{ action := "updated", targetId := pid, performedBy := uid
             reason := args.reason }]
        budgetItems := patchAssoc db.budgetItems a
          (fun x => applyBudgetMetrics x
            (recalculateBudgetItemMetrics bA.totalBudgetAllocated
              (childProjects
                (patchAssoc db.projects pid (applyUpdateArgs args now uid)) a))
            now uid) }, ?_⟩
    simp [updateProject, hpe, hnew, hbA, hold, logProjectActivityDb,
      recalcBudgetDb, hu]
  · intro hold hnew
    refine ⟨{ db with
        projects := patchAssoc db.projects pid (applyUpdateArgs args now uid)
        projectActivities := db.projectActivities ++
          [{ action := "updated", targetId := pid, performedBy := uid
             reason := args.reason }] }, ?_⟩
    simp [updateProject, hpe, hnew, hold, logProjectActivityDb, hu]

/-- C7 witness: moving project 1 from budget item 10 to budget item 20
(user 7, time 5) recomputes exactly 10 then 20. -/
theorem update_reparenting_recompute_witness :
    lookupAssoc
      (Db.mk [(10, sampleBudgetItem), (20, sampleBudgetItem)]
        [(1, { sampleProject with budgetItemId := some 10 })] [7] [] []).projects 1
      = some { sampleProject with budgetItemId := some 10 } ∧
    7 ∈ (Db.mk [(10, sampleBudgetItem), (20, sampleBudgetItem)]
        [(1, { sampleProject with budgetItemId := some 10 })] [7] [] []).users ∧
    ∃ db2, updateProject
      (Db.mk [(10, sampleBudgetItem), (20, sampleBudgetItem)]
        [(1, { sampleProject with budgetItemId := some 10 })] [7] [] [])
      1 (UpdateArgs.mk (some 20) 0 none 0 none) 5 7 = some (db2, [10, 20]) := by
  refine ⟨rfl, by decide, ?_⟩
  obtain ⟨db2, h, -⟩ :=
    (update_reparenting_recompute
      (Db.mk [(10, sampleBudgetItem), (20, sampleBudgetItem)]
        [(1, { sampleProject with budgetItemId := some 10 })] [7] [] [])
      1 (UpdateArgs.mk (some 20) 0 none 0 none) 5 7
      { sampleProject with budgetItemId := some 10 } rfl (by decide)).1
      10 20 sampleBudgetItem sampleBudgetItem rfl rfl (by decide) rfl rfl
  exact ⟨db2, h⟩

/-- C8: removing a budget item with at least one linked project fails with
the count-bearing error and performs no mutation — the returned state is the
input state, so the budget item, its projects, and the activity log are all
unchanged. -/
theorem remove_blocked_by_linked_projects
    (db : Db) (id uid : Nat) (reason : Option String) (existing : BudgetItem)
    (hbi : lookupAssoc db.budgetItems id = some existing)
    (hcb : existing.createdBy = uid)
    (hn : 0 < (db.projects.filter (fun e => e.2.budgetItemId = some id)).length) :
    removeBudgetItem db id uid reason
      = (db, .error ("Cannot delete budget item with "
          ++ toString (db.projects.filter
              (fun e => e.2.budgetItemId = some id)).length
          ++ " linked project(s).")) ∧
    (removeBudgetItem db id uid reason).1.budgetItems = db.budgetItems ∧
    (removeBudgetItem db id uid reason).1.projects = db.projects ∧
    (removeBudgetItem db id uid reason).1.budgetActivities = db.budgetActivities := by
  have h : removeBudgetItem db id uid reason
      = (db, .error ("Cannot delete budget item with "
          ++ toString (db.projects.filter
              (fun e => e.2.budgetItemId = some id)).length
          ++ " linked project(s).")) := by
    simp [removeBudgetItem, hbi, hcb, hn]
  exact ⟨h, by rw [h], by rw [h], by rw [h]⟩

/-- C8 witness: budget item 10 (created by user 7) with two linked projects
cannot be removed; the error carries the count 2 and the state is
unchanged. -/
theorem remove_blocked_by_linked_projects_witness :
    lookupAssoc
      (Db.mk [(10, { sampleBudgetItem with createdBy := 7 })]
        [(1, { sampleProject with budgetItemId := some 10 }),
         (2, { sampleProject with budgetItemId := some 10 })] [7] [] []).budgetItems
      10 = some { sampleBudgetItem with createdBy := 7 } ∧
    removeBudgetItem
      (Db.mk [(10, { sampleBudgetItem with createdBy := 7 })]
        [(1, { sampleProject with budgetItemId := some 10 }),
         (2, { sampleProject with budgetItemId := some 10 })] [7] [] [])
      10 7 none
      = (Db.mk [(10, { sampleBudgetItem with createdBy := 7 })]
          [(1, { sampleProject with budgetItemId := some 10 }),
           (2, { sampleProject with budgetItemId := some 10 })] [7] [] [],
         .error "Cannot delete budget item with 2 linked project(s).") := by
  refine ⟨rfl, ?_⟩
  rw [(remove_blocked_by_linked_projects
      (Db.mk [(10, { sampleBudgetItem with createdBy := 7 })]
        [(1, { sampleProject with budgetItemId := some 10 }),
         (2, { sampleProject with budgetItemId := some 10 })] [7] [] [])
      10 7 none { sampleBudgetItem with createdBy := 7 } rfl rfl (by decide)).1]
  rfl

/-- C10: the removal precondition counts soft-deleted projects as blocking —
the linked-projects query carries no `isDeleted` filter, so even when every
linked project is trashed the removal still fails, and the count in the
error message includes the trashed projects. -/
theorem remove_counts_trashed_projects
    (db : Db) (id uid : Nat) (reason : Option String) (existing : BudgetItem)
    (hbi : lookupAssoc db.budgetItems id = some existing)
    (hcb : existing.createdBy = uid)
    (hdel : ∀ e ∈ db.projects.filter (fun e => e.2.budgetItemId = some id),
      e.2.isDeleted = some true)
    (hn : 0 < (db.projects.filter (fun e => e.2.budgetItemId = some id)).length) :
    removeBudgetItem db id uid reason
      = (db, .error ("Cannot delete budget item with "
          ++ toString (db.projects.filter
              (fun e => e.2.budgetItemId = some id)).length
          ++ " linked project(s).")) := by
  simp [removeBudgetItem, hbi, hcb, hn]

/-- C10 witness: budget item 10 with two linked projects, both in the trash,
still cannot be removed; the error counts both trashed projects. -/
theorem remove_counts_trashed_projects_witness :
    (∀ e ∈ (Db.mk [(10, { sampleBudgetItem with createdBy := 7 })]
        [(1, { sampleProject with budgetItemId := some 10, isDeleted := some true }),
         (2, { sampleProject with budgetItemId := some 10, isDeleted := some true })]
        [7] [] []).projects.filter (fun e => e.2.budgetItemId = some 10),
      e.2.isDeleted = some true) ∧
    removeBudgetItem
      (Db.mk [(10, { sampleBudgetItem with createdBy := 7 })]
        [(1, { sampleProject with budgetItemId := some 10, isDeleted := some true }),
         (2, { sampleProject with budgetItemId := some 10, isDeleted := some true })]
        [7] [] [])
      10 7 none
      = (Db.mk [(10, { sampleBudgetItem with createdBy := 7 })]
          [(1, { sampleProject with budgetItemId := some 10, isDeleted := some true }),
           (2, { sampleProject with budgetItemId := some 10, isDeleted := some true })]
          [7] [] [],
         .error "Cannot delete budget item with 2 linked project(s).") := by
  refine ⟨by decide, ?_⟩
  rw [remove_counts_trashed_projects
      (Db.mk [(10, { sampleBudgetItem with createdBy := 7 })]
        [(1, { sampleProject with budgetItemId := some 10, isDeleted := some true }),
         (2, { sampleProject with budgetItemId := some 10, isDeleted := some true })]
        [7] [] [])
      10 7 none { sampleBudgetItem with createdBy := 7 } rfl rfl (by decide)
      (by decide)]
  rfl

/-- Deduplication keeps exactly the members of the original key list. -/
lemma mem_dedupKeys (l : List String) (k : String) :
    k ∈ dedupKeys l ↔ k ∈ l := by
  induction l with
  | nil => simp [dedupKeys]
  | cons x xs ih =>
    simp only [dedupKeys, List.mem_cons, List.mem_filter, ih, decide_not,
      Bool.not_eq_true, decide_eq_false_iff_not]
    constructor
    · rintro (rfl | ⟨hm, -⟩)
      · exact Or.inl rfl
      · exact Or.inr hm
    · rintro (rfl | hm)
      · exact Or.inl rfl
      · by_cases hkx : k = x
        · exact Or.inl hkx
        · exact Or.inr ⟨hm, by simpa using hkx⟩

/-- C9: for an update-action log call with both snapshots present, a field
name appears in `changedFields` exactly when it is a key of either snapshot,
is not in the fixed ignore-list, and its serialized values differ; and when
`totalBudgetAllocated` changed, the change summary flags `budgetChanged` and
carries the previous and new values. -/
theorem changed_fields_spec (prev next : JsonRecord) (k : String) :
    (k ∈ changedFieldsOf prev next ↔
      ((k ∈ recordKeys prev ∨ k ∈ recordKeys next) ∧ k ∉ ignoredFields ∧
        (recordGet prev k).map stringifyVal ≠ (recordGet next k).map stringifyVal)) ∧
    ("totalBudgetAllocated" ∈ changedFieldsOf prev next →
      (projectActivityDiff prev next).2.budgetChanged = true ∧
      (projectActivityDiff prev next).2.oldBudget
        = recordGet prev "totalBudgetAllocated" ∧
      (projectActivityDiff prev next).2.newBudget
        = recordGet next "totalBudgetAllocated") := by
  constructor
  · rw [changedFieldsOf, List.mem_filter, mem_dedupKeys, List.mem_append]
    simp [serializedDiffer]
  · intro h
    refine ⟨?_, ?_, ?_⟩ <;> simp [projectActivityDiff, h]

/-- C9 witness: the spec example — previous budget 100, new budget 150,
status unchanged: `changedFields` is exactly `["totalBudgetAllocated"]` and
the summary records `budgetChanged` with old value 100 and new value 150. -/
theorem changed_fields_spec_witness :
    changedFieldsOf
        [("totalBudgetAllocated", .num 100), ("status", .str "ongoing")]
        [("totalBudgetAllocated", .num 150), ("status", .str "ongoing")]
      = ["totalBudgetAllocated"] ∧
    "status" ∉ changedFieldsOf
        [("totalBudgetAllocated", .num 100), ("status", .str "ongoing")]
        [("totalBudgetAllocated", .num 150), ("status", .str "ongoing")] ∧
    (projectActivityDiff
        [("totalBudgetAllocated", .num 100), ("status", .str "ongoing")]
        [("totalBudgetAllocated", .num 150), ("status", .str "ongoing")]).2.budgetChanged
      = true ∧
    (projectActivityDiff
        [("totalBudgetAllocated", .num 100), ("status", .str "ongoing")]
        [("totalBudgetAllocated", .num 150), ("status", .str "ongoing")]).2.oldBudget
      = some (.num 100) ∧
    (projectActivityDiff
        [("totalBudgetAllocated", .num 100), ("status", .str "ongoing")]
        [("totalBudgetAllocated", .num 150), ("status", .str "ongoing")]).2.newBudget
      = some (.num 150) := by
  have h := (changed_fields_spec
    [("totalBudgetAllocated", .num 100), ("status", .str "ongoing")]
    [("totalBudgetAllocated", .num 150), ("status", .str "ongoing")]
    "totalBudgetAllocated").2 (by decide)
  exact ⟨by decide, by decide, h.1, h.2.1, h.2.2⟩

end PPDO
